import Mathlib

/-!
Shallow embedding of `grade_summary_tool.py` (AutoGradeCollector): a tool that
heuristically extracts student rosters from spreadsheet grids, collects score
mappings keyed by student identifier, and merges everything into one summary
table.  Cells of a raw grid are modelled as `String` (pandas `astype(str)`
renders missing values as the string "nan"); labeled score tables are modelled
as a column-name list plus rows carrying the identifier cell and the named
score cells; per-file read failures are modelled with `Except`.
-/

namespace GradeSummary

/-- Python `str.strip()` on the character list: drop leading and trailing
whitespace. -/
def pyStripChars (cs : List Char) : List Char :=
  ((cs.dropWhile Char.isWhitespace).reverse.dropWhile Char.isWhitespace).reverse

/-- Python `str.strip()`. -/
def pyStrip (s : String) : String :=
  ⟨pyStripChars s.data⟩

/-- Python `str.lower()` (ASCII letters; CJK characters are unchanged). -/
def pyLower (s : String) : String :=
  ⟨s.data.map Char.toLower⟩

/-- Python `str.isdigit()` on a character list: non-empty and all digits. -/
def pyIsdigitChars (cs : List Char) : Bool :=
  !cs.isEmpty && cs.all Char.isDigit

/-- Python `str.isdigit()`. -/
def pyIsdigit (s : String) : Bool :=
  pyIsdigitChars s.data

/-- Python `s.replace('.', '').replace('-', '')` at the character level. -/
def stripDotDash (cs : List Char) : List Char :=
  cs.filter (fun c => c != '.' && c != '-')

/-- Python `s.replace('.', '')` at the character level. -/
def stripDot (cs : List Char) : List Char :=
  cs.filter (fun c => c != '.')

/-- Substring containment on character lists (Python `pat in s`). -/
def listIsSub (pat : List Char) : List Char → Bool
  | [] => pat.isEmpty
  | c :: rest => pat.isPrefixOf (c :: rest) || listIsSub pat rest

/-- Python `pat in s` for strings. -/
def pyIn (pat s : String) : Bool :=
  listIsSub pat.data s.data

/-- Python truthiness of a string: non-empty. -/
def pyTruthy (s : String) : Bool :=
  !s.data.isEmpty

/-- Normalisation applied to a header cell before keyword matching:
`str(cell_value).strip().lower()`. -/
def normCell (s : String) : String :=
  pyLower (pyStrip s)

/-- The five semantic header fields recognised by the header locator. -/
inductive Field where
  | id
  | name
  | cls
  | gender
  | seq
deriving DecidableEq

/-- Header mapping: semantic field to zero-based column index
(the keys of the Python dict `col_mapping`). -/
structure ColMapping where
  idCol : Option Nat := none
  nameCol : Option Nat := none
  clsCol : Option Nat := none
  genderCol : Option Nat := none
  seqCol : Option Nat := none
deriving DecidableEq

/-- Record column `j` for field `f` (the dict assignment
`temp_mapping[...] = j`; a later assignment overwrites an earlier one). -/
def ColMapping.set (m : ColMapping) (f : Field) (j : Nat) : ColMapping :=
  match f with
  | Field.id => { m with idCol := some j }
  | Field.name => { m with nameCol := some j }
  | Field.cls => { m with clsCol := some j }
  | Field.gender => { m with genderCol := some j }
  | Field.seq => { m with seqCol := some j }

/-- Look up the column recorded for field `f`. -/
def ColMapping.get (m : ColMapping) (f : Field) : Option Nat :=
  match f with
  | Field.id => m.idCol
  | Field.name => m.nameCol
  | Field.cls => m.clsCol
  | Field.gender => m.genderCol
  | Field.seq => m.seqCol

/-- The if/elif keyword chain classifying one normalised header cell
(each cell matches at most one field; identifier keywords take precedence). -/
def matchField (c : String) : Option Field :=
  if pyIn "学号" c || pyIn "student" c || pyIn "id" c then some Field.id
  else if pyIn "姓名" c || pyIn "name" c || pyIn "名字" c then some Field.name
  else if pyIn "班级" c || pyIn "class" c || pyIn "专业" c then some Field.cls
  else if pyIn "性别" c || pyIn "gender" c || pyIn "男女" c then some Field.gender
  else if pyIn "序号" c || pyIn "no" c || pyIn "编号" c then some Field.seq
  else none

/-- Scan the cells of one candidate header row from column `j` on, threading
the accumulator `(found_headers, temp_mapping)`: every matching cell bumps
the count and records its column for the matched field. -/
def rowScanAux : List String → Nat → Nat × ColMapping → Nat × ColMapping
  | [], _, acc => acc
  | c :: cs, j, acc =>
    match matchField (normCell c) with
    | some f => rowScanAux cs (j + 1) (acc.1 + 1, acc.2.set f j)
    | none => rowScanAux cs (j + 1) acc

/-- Scan one candidate header row, starting from the empty mapping. -/
def rowScan (row : List String) : Nat × ColMapping :=
  rowScanAux row 0 (0, {})

/-- Walk the first rows looking for the first one whose scan found at least
two keyword matches; `i` is the absolute index of the first row of the slice. -/
def findHeaderAux : List (List String) → Nat → Option (Nat × ColMapping)
  | [], _ => none
  | r :: rs, i =>
    if 2 ≤ (rowScan r).1 then some (i, (rowScan r).2) else findHeaderAux rs (i + 1)

/-- Header locator: scan the first 20 rows of the grid for a header row
(`for i in range(min(20, len(df)))` with the `found_headers >= 2` test). -/
def findHeaderRow (grid : List (List String)) : Option (Nat × ColMapping) :=
  findHeaderAux (grid.take 20) 0

/-- Identifier-validity predicate applied to a stripped cell: non-empty, not
the missing marker, length at least 8, at least one digit, and not a pure
numeric literal once dots and dashes are removed. -/
def validStudentId (s : String) : Bool :=
  pyTruthy s && s != "nan" && decide (8 ≤ s.data.length) &&
    s.data.any Char.isDigit && !pyIsdigitChars (stripDotDash s.data)

/-- One extracted roster record. -/
structure StudentRecord where
  sid : String
  name : String
  seq : String
  cls : String
  gender : String
  src : String
deriving DecidableEq

/-- Mapped-path secondary field: read the mapped column if present and in
range, strip it, keep it when non-empty and not the missing marker. -/
def optFieldVal (row : List String) (c? : Option Nat) : String :=
  match c? with
  | some c =>
    if c < row.length then
      if pyTruthy (pyStrip (row.getD c "")) && pyStrip (row.getD c "") != "nan" then
        pyStrip (row.getD c "")
      else ""
    else ""
  | none => ""

/-- Mapped-path sequence field: additionally requires a purely numeric value. -/
def seqFieldVal (row : List String) (c? : Option Nat) : String :=
  match c? with
  | some c =>
    if c < row.length then
      if pyTruthy (pyStrip (row.getD c "")) && pyStrip (row.getD c "") != "nan" &&
          pyIsdigit (pyStrip (row.getD c "")) then
        pyStrip (row.getD c "")
      else ""
    else ""
  | none => ""

/-- Mapped-path treatment of one data row: when the identifier column is in
range and its stripped cell is a valid identifier, build the record from the
mapped columns; otherwise produce nothing. -/
def mappedRowRecord (row : List String) (idCol : Nat) (m : ColMapping)
    (src : String) : Option StudentRecord :=
  if idCol < row.length then
    if validStudentId (pyStrip (row.getD idCol "")) then
      some { sid := pyStrip (row.getD idCol "")
             name := optFieldVal row m.nameCol
             seq := seqFieldVal row m.seqCol
             cls := optFieldVal row m.clsCol
             gender := optFieldVal row m.genderCol
             src := src }
    else none
  else none

/-- Mapped path: walk the 30 rows following the header row
(`range(header_row_idx + 1, min(header_row_idx + 31, len(df)))`),
appending one record per qualifying row. -/
def extractMappedPath (grid : List (List String)) (hr idCol : Nat)
    (m : ColMapping) (src : String) : List StudentRecord :=
  ((grid.drop (hr + 1)).take 30).foldl
    (fun acc row => acc ++ (mappedRowRecord row idCol m src).toList) []

/-- Identifier keyword test used by the fallback anchor search (the same
keywords as the identifier branch of the header chain). -/
def idKeywordCell (c : String) : Bool :=
  pyIn "学号" c || pyIn "student" c || pyIn "id" c

/-- Fallback anchor search over a row slice: first row containing an
identifier-keyword cell, with the leftmost such cell in that row. -/
def findIdAnchorAux : List (List String) → Nat → Option (Nat × Nat)
  | [], _ => none
  | r :: rs, i =>
    match r.findIdx? (fun c => idKeywordCell (normCell c)) with
    | some j => some (i, j)
    | none => findIdAnchorAux rs (i + 1)

/-- Fallback anchor: scan the first 20 rows for an identifier-keyword cell. -/
def findIdAnchor (grid : List (List String)) : Option (Nat × Nat) :=
  findIdAnchorAux (grid.take 20) 0

/-- The `is_student_id` test computed for a candidate cell on the fallback
path (a stripped value that looks like a student identifier). -/
def isStudentIdLike (v : String) : Bool :=
  decide (8 ≤ v.data.length) && v.data.any Char.isDigit &&
    !pyIsdigitChars (stripDotDash v.data)

/-- Keywords that exclude a candidate name (checked on the lowered value). -/
def nameExcluded (v : String) : Bool :=
  ["class", "grade", "班", "级", "系", "院", "专业"].any
    (fun kw => pyIn kw (pyLower v))

/-- Keywords that mark a candidate class label (checked case-sensitively). -/
def classKeyword (v : String) : Bool :=
  ["T", "工商", "管理", "经济", "金融", "会计"].any (fun kw => pyIn kw v)

/-- Fields inferred from the other cells of a fallback-path row. -/
structure InferState where
  name : String := ""
  seq : String := ""
  gender : String := ""
  cls : String := ""
deriving DecidableEq

/-- One step of the fallback-path inference loop: the if/elif chain run on
the cell at column `j`.  A cell entering the name branch is consumed by it
even when the inner name checks fail. -/
def inferStep (idCol : Nat) (st : InferState) (j : Nat) (cell : String) :
    InferState :=
  if j != idCol && pyTruthy cell && cell != "nan" then
    if st.name.data.isEmpty &&
        !(isStudentIdLike (pyStrip cell) ||
          pyIsdigitChars (stripDot (pyStrip cell).data)) then
      if decide (2 ≤ (pyStrip cell).data.length) &&
          decide ((pyStrip cell).data.length ≤ 15) &&
          !nameExcluded (pyStrip cell) then
        { st with name := pyStrip cell }
      else st
    else if st.seq.data.isEmpty && pyIsdigit (pyStrip cell) &&
        decide ((pyStrip cell).data.length ≤ 3) then
      { st with seq := pyStrip cell }
    else if st.gender.data.isEmpty &&
        (pyStrip cell == "男" || pyStrip cell == "女") then
      { st with gender := pyStrip cell }
    else if st.cls.data.isEmpty then
      if classKeyword (pyStrip cell) && decide ((pyStrip cell).data.length ≤ 20) &&
          decide (3 ≤ (pyStrip cell).data.length) then
        { st with cls := pyStrip cell }
      else st
    else st
  else st

/-- Run the inference loop over the cells of a row, left to right. -/
def inferFieldsAux (idCol : Nat) : List String → Nat → InferState → InferState
  | [], _, st => st
  | c :: cs, j, st => inferFieldsAux idCol cs (j + 1) (inferStep idCol st j c)

/-- Fallback-path field inference for one qualifying row. -/
def inferFields (row : List String) (idCol : Nat) : InferState :=
  inferFieldsAux idCol row 0 {}

/-- Fallback-path treatment of one data row below the anchor. -/
def fallbackRowRecord (row : List String) (idCol : Nat) (src : String) :
    Option StudentRecord :=
  if idCol < row.length then
    if validStudentId (pyStrip (row.getD idCol "")) then
      some { sid := pyStrip (row.getD idCol "")
             name := (inferFields row idCol).name
             seq := (inferFields row idCol).seq
             cls := (inferFields row idCol).cls
             gender := (inferFields row idCol).gender
             src := src }
    else none
  else none

/-- Fallback path: find the anchor cell, then walk the 30 rows below it in
the anchor column; no anchor means no records. -/
def extractFallback (grid : List (List String)) (src : String) :
    List StudentRecord :=
  match findIdAnchor grid with
  | some (hr, c) =>
    ((grid.drop (hr + 1)).take 30).foldl
      (fun acc row => acc ++ (fallbackRowRecord row c src).toList) []
  | none => []

/-- Roster extraction for one grid: mapped path when a header row was found
and it mapped the identifier column, fallback path otherwise. -/
def extractRosterFile (grid : List (List String)) (src : String) :
    List StudentRecord :=
  match findHeaderRow grid with
  | some (hr, m) =>
    match m.idCol with
    | some c => extractMappedPath grid hr c m src
    | none => extractFallback grid src
  | none => extractFallback grid src

/-- One row of a labeled score table: the identifier cell (`row['学号']`,
`none` for a missing value) and the remaining cells by column name. -/
structure SRow where
  sid : Option String
  vals : List (String × Option Int)
deriving DecidableEq

/-- A labeled score table (a spreadsheet read with its first row as header). -/
structure LTable where
  cols : List String
  rows : List SRow
deriving DecidableEq

/-- Cell of row `r` in column `c`; a missing column reads as a missing value
(the real reader would raise, which the per-file handler turns into a skip). -/
def rowCell (r : SRow) (c : String) : Option Int :=
  ((r.vals.lookup c).getD none)

/-- Score-column selection: the first column whose name contains the
score-label keyword (`for col in df.columns: if '得分' in str(col): break`). -/
def scoreColOf (cols : List String) : Option String :=
  cols.find? (fun c => pyIn "得分" c)

/-- The aggregated score mapping (`tl_scores`): identifier to value. -/
abbrev TlMap := List (String × Int)

/-- The per-file-keyed score mapping (`sa_scores` / `la_scores`):
identifier to (category key to value). -/
abbrev SaMap := List (String × List (String × Int))

/-- Python dict assignment `m[k] = v`: update in place, else append. -/
def dictInsert (m : TlMap) (k : String) (v : Int) : TlMap :=
  match m with
  | [] => [(k, v)]
  | (k1, v1) :: rest =>
    if k1 = k then (k1, v) :: rest else (k1, v1) :: dictInsert rest k v

/-- Nested dict assignment `m.setdefault(sid, {})[key] = v`. -/
def insert2 (m : SaMap) (sid key : String) (v : Int) : SaMap :=
  match m with
  | [] => [(sid, [(key, v)])]
  | (s1, inner) :: rest =>
    if s1 = sid then (s1, dictInsert inner key v) :: rest
    else (s1, inner) :: insert2 rest sid key v

/-- Nested dict lookup `m[sid][key]` as an option. -/
def lookup2 (m : SaMap) (sid key : String) : Option Int :=
  match m.lookup sid with
  | some inner => inner.lookup key
  | none => none

/-- The qualifying write of one row under column `c`: when both the
identifier cell and the score cell are non-missing, the pair of the
stripped identifier and the value; nothing otherwise. -/
def rowWrite (c : String) (r : SRow) : Option (String × Int) :=
  match r.sid, rowCell r c with
  | some s, some v => some (pyStrip s, v)
  | _, _ => none

/-- Per-file-keyed collection of the rows of one file, given the chosen
score column `c` and the file category key: every row with non-missing
identifier and score records the value under `(stripped id, key)`. -/
def processSaRows (key c : String) (rows : List SRow) (m : SaMap) : SaMap :=
  rows.foldl
    (fun m r => (rowWrite c r).elim m (fun p => insert2 m p.1 key p.2)) m

/-- Per-file-keyed collection for one file: locate the score column and fold
its rows into the mapping; no matching column contributes nothing. -/
def processSaFile (key : String) (t : LTable) (m : SaMap) : SaMap :=
  match scoreColOf t.cols with
  | some c => processSaRows key c t.rows m
  | none => m

/-- Aggregated collection for one file: when the exact column `讨论/`
exists, every row with non-missing identifier and value assigns the value
keyed directly by the stripped identifier (overwriting earlier entries). -/
def processTlFile (m : TlMap) (t : LTable) : TlMap :=
  if t.cols.contains "讨论/" then
    t.rows.foldl
      (fun m r => (rowWrite "讨论/" r).elim m (fun p => dictInsert m p.1 p.2)) m
  else m

/-- Category key derived from a file name:
`Path(f).name.replace('.xls', '')`. -/
def catKeyOf (nm : String) : String :=
  nm.replace ".xls" ""

/-- Fold the per-file-keyed collector over a list of already-read files,
each paired with its category key. -/
def collectSaFiles (fs : List (String × LTable)) : SaMap :=
  fs.foldl (fun m p => processSaFile p.1 p.2 m) []

/-- Fold the aggregated collector over a list of already-read files. -/
def processTlFiles (ts : List LTable) : TlMap :=
  ts.foldl processTlFile []

/-- Roster collection over files with per-file read outcomes:
a failed read is caught and skipped, an ok read appends its records. -/
def collectRoster
    (files : List (String × Except String (List (List String)))) :
    List StudentRecord :=
  files.foldl
    (fun acc f =>
      match f.2 with
      | Except.ok g => acc ++ extractRosterFile g f.1
      | Except.error _ => acc) []

/-- Per-file-keyed score collection over files with read outcomes. -/
def collectSa (files : List (String × Except String LTable)) : SaMap :=
  files.foldl
    (fun m f =>
      match f.2 with
      | Except.ok t => processSaFile (catKeyOf f.1) t m
      | Except.error _ => m) []

/-- Aggregated score collection over files with read outcomes. -/
def collectTl (files : List (String × Except String LTable)) : TlMap :=
  files.foldl
    (fun m f =>
      match f.2 with
      | Except.ok t => processTlFile m t
      | Except.error _ => m) []

/-- A cell of the merged output table. -/
inductive Cell where
  | str (s : String)
  | num (n : Int)
deriving DecidableEq

/-- All category keys occurring in a per-file-keyed mapping
(`[k for scores in m.values() for k in scores.keys()]`). -/
def catKeys (m : SaMap) : List String :=
  (m.map (fun p => p.2.map (fun q => q.1))).flatten

/-- Category columns of a per-file-keyed mapping:
`sorted(list(set(...)))`. -/
def sortedCats (m : SaMap) : List String :=
  List.insertionSort (fun a b => a ≤ b) (catKeys m).dedup

/-- The fixed identity and attribute columns of the output table. -/
def fixedCols : List String :=
  ["序号", "原序号", "学号", "姓名", "班级", "性别", "来源文件"]

/-- The output column list: fixed columns, the sorted per-file-keyed
category keys of each of the two multi-file categories, then the single
aggregated column. -/
def buildColumns (sa la : SaMap) : List String :=
  fixedCols ++ sortedCats sa ++ sortedCats la ++ ["TL讨论"]

/-- The seven fixed identity and attribute cells of one output row: fresh
sequence number, original sequence, identifier, name, class, gender,
source file. -/
def fixedRowCells (i : Nat) (st : StudentRecord) : List Cell :=
  [Cell.num (Int.ofNat i), Cell.str st.seq, Cell.str st.sid, Cell.str st.name,
   Cell.str st.cls, Cell.str st.gender, Cell.str st.src]

/-- One output row for a roster record with fresh sequence number `i`:
identity cells, then one score cell per category key (zero when the
identifier has no entry in that category), then the aggregated cell. -/
def buildRow (i : Nat) (st : StudentRecord) (allSa allLa : List String)
    (sa la : SaMap) (tl : TlMap) : List Cell :=
  fixedRowCells i st
  ++ allSa.map (fun k => Cell.num ((lookup2 sa st.sid k).getD 0))
  ++ allLa.map (fun k => Cell.num ((lookup2 la st.sid k).getD 0))
  ++ [Cell.num ((tl.lookup st.sid).getD 0)]

/-- Build the output rows (`enumerate(cl_students, 1)`), one per record. -/
def mergeRowsAux (allSa allLa : List String) (sa la : SaMap) (tl : TlMap) :
    Nat → List StudentRecord → List (List Cell)
  | _, [] => []
  | i, st :: rest =>
    buildRow i st allSa allLa sa la tl ::
      mergeRowsAux allSa allLa sa la tl (i + 1) rest

/-- The output rows in roster order with 1-based fresh sequence numbers. -/
def mergeRows (students : List StudentRecord) (allSa allLa : List String)
    (sa la : SaMap) (tl : TlMap) : List (List Cell) :=
  mergeRowsAux allSa allLa sa la tl 1 students

/-- The merged summary table. -/
structure SummaryDf where
  cols : List String
  rows : List (List Cell)
deriving DecidableEq

/-- Build the merged summary from the roster and the three score mappings. -/
def mergeSummary (students : List StudentRecord) (sa la : SaMap)
    (tl : TlMap) : SummaryDf :=
  { cols := buildColumns sa la
    rows := mergeRows students (sortedCats sa) (sortedCats la) sa la tl }

/-- The fixed default output file name. -/
def defaultOutputName : String :=
  "学生成绩汇总表.xlsx"

/-- The file writes performed by the export step, as written content keyed
by file name: an empty (or missing) summary is reported and nothing is
written; otherwise the table is written once, a header row and the data
rows. -/
def exportWrites (df : SummaryDf) (outName : String) :
    List (String × List (List Cell)) :=
  if df.rows.length = 0 then []
  else [(outName, df.cols.map Cell.str :: df.rows)]

/-- The full pipeline over already-discovered files with read outcomes:
extract the roster, collect the three score categories, merge. -/
def runPipeline
    (rosterFiles : List (String × Except String (List (List String))))
    (saFiles laFiles tlFiles : List (String × Except String LTable)) :
    SummaryDf :=
  mergeSummary (collectRoster rosterFiles) (collectSa saFiles)
    (collectSa laFiles) (collectTl tlFiles)

/-- Identifier predicate in the words of the specification: non-empty, not a
missing-value marker, length at least 8, at least one digit, and at least one
non-digit character after stripping dots and dashes. -/
def claimValidId (s : String) : Bool :=
  !s.data.isEmpty && s != "nan" && decide (8 ≤ s.data.length) &&
    s.data.any Char.isDigit &&
    (stripDotDash s.data).any (fun c => !c.isDigit)

/-- The identifier cell of a row seen by the mapped path: the stripped cell
of the identifier column, the empty string when the column is out of range. -/
def idCellOf (row : List String) (idCol : Nat) : String :=
  if idCol < row.length then pyStrip (row.getD idCol "") else ""

/-- Number of keyword-matching cells of a candidate header row, counted with
multiplicity. -/
def matchCount (row : List String) : Nat :=
  (row.filter (fun c => (matchField (normCell c)).isSome)).length

/-- Number of distinct semantic fields matched by some cell of a row. -/
def distinctFieldCount (row : List String) : Nat :=
  ([Field.id, Field.name, Field.cls, Field.gender, Field.seq].filter
    (fun f => row.any (fun c => decide (matchField (normCell c) = some f)))).length

/-- Rightmost column at or after `j` whose cell matches field `f`
(a later match takes precedence over an earlier one). -/
def lastMatchFrom (f : Field) : List String → Nat → Option Nat
  | [], _ => none
  | c :: cs, j =>
    match lastMatchFrom f cs (j + 1) with
    | some r => some r
    | none => if matchField (normCell c) = some f then some j else none

/-- Row `i` of a grid (empty when out of range). -/
def rowAt (grid : List (List String)) (i : Nat) : List String :=
  (grid.getD i [])

/-- Eligibility of a cell for fallback-path field inference: not the
identifier column, non-empty, not the missing marker. -/
def eligibleCell (idCol j : Nat) (cell : String) : Bool :=
  j != idCol && pyTruthy cell && cell != "nan"

/-- Name-branch entry condition: the stripped value is neither
identifier-like nor purely numeric once dots are removed. -/
def nameConsumes (v : String) : Bool :=
  !(isStudentIdLike v || pyIsdigitChars (stripDot v.data))

/-- Length and keyword checks of the name heuristic (the inner tests of the
name branch). -/
def nameChecks (v : String) : Bool :=
  decide (2 ≤ v.data.length) && decide (v.data.length ≤ 15) && !nameExcluded v

/-- Name predicate of the specification: non-identifier, non-numeric,
length 2 to 15, no class or organisation keyword. -/
def specNameOk (v : String) : Bool :=
  nameConsumes v && nameChecks v

/-- Sequence predicate of the specification: purely numeric, length at
most 3. -/
def specSeqOk (v : String) : Bool :=
  pyIsdigitChars v.data && decide (v.data.length ≤ 3)

/-- Gender predicate of the specification: exact member of the two-value
set. -/
def specGenderOk (v : String) : Bool :=
  v == "男" || v == "女"

/-- Class predicate of the specification: contains a class or department
keyword and has length 3 to 20. -/
def specClsOk (v : String) : Bool :=
  classKeyword v && decide (v.data.length ≤ 20) && decide (3 ≤ v.data.length)

/-- First eligible cell of a row (scanned left to right from column `j`)
whose stripped value satisfies `p`; empty string when there is none. -/
def firstQualifyingAux (idCol : Nat) (p : String → Bool) :
    List String → Nat → String
  | [], _ => ""
  | c :: cs, j =>
    if eligibleCell idCol j c && p (pyStrip c) then pyStrip c
    else firstQualifyingAux idCol p cs (j + 1)

/-- First qualifying cell of a row for predicate `p`. -/
def firstQualifying (row : List String) (idCol : Nat) (p : String → Bool) :
    String :=
  firstQualifyingAux idCol p row 0

/-- Fallback-path inference in the words of the claim: each field
independently takes the first eligible cell qualifying under that field's
predicate. -/
def specInfer (row : List String) (idCol : Nat) : InferState :=
  { name := firstQualifying row idCol specNameOk
    seq := firstQualifying row idCol specSeqOk
    gender := firstQualifying row idCol specGenderOk
    cls := firstQualifying row idCol specClsOk }

/-- One amended inference step, phrased with the named field predicates:
while the name field is unfilled, any eligible cell satisfying
`nameConsumes` is consumed by the name heuristic (filling the name exactly
when the full name predicate holds); only cells not so consumed can fill
sequence, gender and class, in that priority order, each at most once. -/
def amendedStep (idCol : Nat) (st : InferState) (j : Nat) (cell : String) :
    InferState :=
  if eligibleCell idCol j cell then
    if st.name.data.isEmpty && nameConsumes (pyStrip cell) then
      if nameChecks (pyStrip cell) then { st with name := pyStrip cell } else st
    else if st.seq.data.isEmpty && specSeqOk (pyStrip cell) then
      { st with seq := pyStrip cell }
    else if st.gender.data.isEmpty && specGenderOk (pyStrip cell) then
      { st with gender := pyStrip cell }
    else if st.cls.data.isEmpty then
      if specClsOk (pyStrip cell) then { st with cls := pyStrip cell } else st
    else st
  else st

/-- Run the amended inference over the cells of a row. -/
def amendedInferAux (idCol : Nat) :
    List String → Nat → InferState → InferState
  | [], _, st => st
  | c :: cs, j, st => amendedInferAux idCol cs (j + 1) (amendedStep idCol st j c)

/-- Amended fallback-path inference for one row. -/
def amendedInfer (row : List String) (idCol : Nat) : InferState :=
  amendedInferAux idCol row 0 {}

/-- The most recent value written for `id` by a write list (file order, then
row order); `none` when no write mentions `id`. -/
def lastWriteVal (ws : List (String × Int)) (id : String) : Option Int :=
  (ws.reverse.find? (fun p => p.1 == id)).map (fun p => p.2)

/-- The qualifying writes of one aggregated-category file, in row order:
nothing unless the exact fixed column is present. -/
def tlFileWrites (t : LTable) : List (String × Int) :=
  if t.cols.contains "讨论/" then t.rows.filterMap (rowWrite "讨论/")
  else []

/-- The qualifying writes of one per-file-keyed file under its chosen
score column `c`, in row order. -/
def saRowWrites (c : String) (rows : List SRow) : List (String × Int) :=
  rows.filterMap (rowWrite c)

/-- The value one per-file-keyed file determines for identifier `id` under
its own category key: the most recent qualifying write of that file in its
chosen score column, nothing when the file has no score column. -/
def saFileVal (t : LTable) (id : String) : Option Int :=
  match scoreColOf t.cols with
  | some c => lastWriteVal (saRowWrites c t.rows) id
  | none => none

/-! Basic lemmas shared by the claim theorems. -/

theorem not_all_isDigit (cs : List Char) :
    (!cs.all Char.isDigit) = cs.any (fun c => !c.isDigit) := by
  induction cs with
  | nil => simp
  | cons a l ih => simp [List.all_cons, List.any_cons, Bool.not_and, ih]

theorem any_isDigit_stripDotDash (cs : List Char)
    (h : cs.any Char.isDigit = true) :
    (stripDotDash cs).any Char.isDigit = true := by
  obtain ⟨c, hc, hcd⟩ := List.any_eq_true.mp h
  refine List.any_eq_true.mpr ⟨c, ?_, hcd⟩
  unfold stripDotDash
  refine List.mem_filter.mpr ⟨hc, ?_⟩
  have h1 : c ≠ '.' := by rintro rfl; exact absurd hcd (by decide)
  have h2 : c ≠ '-' := by rintro rfl; exact absurd hcd (by decide)
  simp [h1, h2]

theorem isEmpty_false_of_any (cs : List Char) (p : Char → Bool)
    (h : cs.any p = true) : cs.isEmpty = false := by
  obtain ⟨c, hc, _⟩ := List.any_eq_true.mp h
  cases cs
  · cases hc
  · rfl

theorem validStudentId_eq_claimValidId (s : String) :
    validStudentId s = claimValidId s := by
  unfold validStudentId claimValidId pyTruthy
  cases hd : s.data.any Char.isDigit
  · simp [hd]
  · have h1 := any_isDigit_stripDotDash s.data hd
    have h2 := isEmpty_false_of_any _ _ h1
    have h3 : (!pyIsdigitChars (stripDotDash s.data)) =
        (stripDotDash s.data).any (fun c => !c.isDigit) := by
      unfold pyIsdigitChars
      rw [h2]
      simp [not_all_isDigit]
    rw [h3]

theorem foldl_collect {α β : Type} (f : α → Option β) (l : List α) :
    ∀ acc : List β,
      l.foldl (fun a x => a ++ (f x).toList) acc = acc ++ l.filterMap f := by
  induction l with
  | nil => intro acc; simp
  | cons x xs ih =>
    intro acc
    cases hfx : f x with
    | none => simp [List.foldl_cons, List.filterMap_cons, hfx, ih]
    | some b => simp [List.foldl_cons, List.filterMap_cons, hfx, ih]

theorem claimValidId_empty : claimValidId "" = false := by decide

/-- C1: on the mapped path, the extractor walks the whole 30-row window
after the header row and emits, per row, exactly one record when the
identifier-column cell satisfies the claimed validity predicate (non-empty,
not the missing marker, length at least 8, at least one digit, at least one
non-digit after stripping dots and dashes) and zero records otherwise;
it does not stop at the first qualifying row. -/
theorem c1_mapped_path_exact_records (grid : List (List String))
    (hr idCol : Nat) (m : ColMapping) (src : String) :
    extractMappedPath grid hr idCol m src
      = ((grid.drop (hr + 1)).take 30).filterMap
          (fun row => mappedRowRecord row idCol m src)
    ∧ ∀ row : List String,
        (mappedRowRecord row idCol m src).isSome
          = claimValidId (idCellOf row idCol) := by
  constructor
  · unfold extractMappedPath
    have h := foldl_collect (fun row => mappedRowRecord row idCol m src)
        ((grid.drop (hr + 1)).take 30) []
    simpa using h
  · intro row
    unfold mappedRowRecord idCellOf
    by_cases hlt : idCol < row.length
    · rw [if_pos hlt, if_pos hlt, validStudentId_eq_claimValidId]
      cases hv : claimValidId (pyStrip (row.getD idCol "")) <;> simp [hv]
    · rw [if_neg hlt, if_neg hlt, claimValidId_empty]
      rfl

/-- C7: a per-file failure in any of the three collection phases is caught
and skipped: the failing file contributes nothing, previously accumulated
records are unchanged, and all remaining files are still processed. -/
theorem c7_per_file_failure_isolation :
    (∀ (xs ys : List (String × Except String (List (List String))))
        (nm e : String),
        collectRoster (xs ++ (nm, Except.error e) :: ys)
          = collectRoster (xs ++ ys))
    ∧ (∀ (xs ys : List (String × Except String LTable)) (nm e : String),
        collectSa (xs ++ (nm, Except.error e) :: ys) = collectSa (xs ++ ys))
    ∧ (∀ (xs ys : List (String × Except String LTable)) (nm e : String),
        collectTl (xs ++ (nm, Except.error e) :: ys) = collectTl (xs ++ ys)) := by
  refine ⟨?_, ?_, ?_⟩
  · intro xs ys nm e
    unfold collectRoster
    rw [List.foldl_append, List.foldl_append, List.foldl_cons]
  · intro xs ys nm e
    unfold collectSa
    rw [List.foldl_append, List.foldl_append, List.foldl_cons]
  · intro xs ys nm e
    unfold collectTl
    rw [List.foldl_append, List.foldl_append, List.foldl_cons]

/-! Lemmas and theorem for the merger claim. -/

theorem fixedRowCells_length (i : Nat) (st : StudentRecord) :
    (fixedRowCells i st).length = 7 := rfl

theorem lt_length_of_getElem?_some {α : Type} {l : List α} {j : Nat} {a : α}
    (h : l[j]? = some a) : j < l.length := by
  by_contra hge
  rw [List.getElem?_eq_none (Nat.le_of_not_lt hge)] at h
  cases h

theorem buildRow_sa_cell (i : Nat) (st : StudentRecord)
    (allSa allLa : List String) (sa la : SaMap) (tl : TlMap) (j : Nat)
    (k : String) (hj : allSa[j]? = some k) :
    (buildRow i st allSa allLa sa la tl)[7 + j]?
      = some (Cell.num ((lookup2 sa st.sid k).getD 0)) := by
  have hlt : j < allSa.length := lt_length_of_getElem?_some hj
  unfold buildRow
  rw [List.append_assoc, List.append_assoc]
  rw [List.getElem?_append, fixedRowCells_length, if_neg (by omega)]
  have h1 : 7 + j - 7 = j := by omega
  rw [h1, List.getElem?_append, List.length_map, if_pos hlt,
    List.getElem?_map, hj]
  rfl

theorem buildRow_la_cell (i : Nat) (st : StudentRecord)
    (allSa allLa : List String) (sa la : SaMap) (tl : TlMap) (j : Nat)
    (k : String) (hj : allLa[j]? = some k) :
    (buildRow i st allSa allLa sa la tl)[7 + allSa.length + j]?
      = some (Cell.num ((lookup2 la st.sid k).getD 0)) := by
  have hlt : j < allLa.length := lt_length_of_getElem?_some hj
  unfold buildRow
  rw [List.append_assoc, List.append_assoc]
  rw [List.getElem?_append, fixedRowCells_length, if_neg (by omega)]
  have h1 : 7 + allSa.length + j - 7 = allSa.length + j := by omega
  rw [h1, List.getElem?_append, List.length_map, if_neg (by omega),
    Nat.add_sub_cancel_left, List.getElem?_append, List.length_map,
    if_pos hlt, List.getElem?_map, hj]
  rfl

theorem buildRow_tl_cell (i : Nat) (st : StudentRecord)
    (allSa allLa : List String) (sa la : SaMap) (tl : TlMap) :
    (buildRow i st allSa allLa sa la tl)[7 + allSa.length + allLa.length]?
      = some (Cell.num ((tl.lookup st.sid).getD 0)) := by
  unfold buildRow
  rw [List.append_assoc, List.append_assoc]
  rw [List.getElem?_append, fixedRowCells_length, if_neg (by omega)]
  have h1 : 7 + allSa.length + allLa.length - 7
      = allSa.length + allLa.length := by omega
  rw [h1, List.getElem?_append, List.length_map, if_neg (by omega),
    Nat.add_sub_cancel_left, List.getElem?_append, List.length_map,
    if_neg (by omega), Nat.sub_self]
  rfl

theorem buildRow_congr (i : Nat) (st : StudentRecord)
    (allSa allLa : List String) (sa sa2 la la2 : SaMap) (tl tl2 : TlMap)
    (hsa : ∀ k, lookup2 sa st.sid k = lookup2 sa2 st.sid k)
    (hla : ∀ k, lookup2 la st.sid k = lookup2 la2 st.sid k)
    (htl : tl.lookup st.sid = tl2.lookup st.sid) :
    buildRow i st allSa allLa sa la tl
      = buildRow i st allSa allLa sa2 la2 tl2 := by
  unfold buildRow
  have e1 : allSa.map (fun k => Cell.num ((lookup2 sa st.sid k).getD 0))
      = allSa.map (fun k => Cell.num ((lookup2 sa2 st.sid k).getD 0)) :=
    List.map_congr_left (fun k _ => by rw [hsa k])
  have e2 : allLa.map (fun k => Cell.num ((lookup2 la st.sid k).getD 0))
      = allLa.map (fun k => Cell.num ((lookup2 la2 st.sid k).getD 0)) :=
    List.map_congr_left (fun k _ => by rw [hla k])
  rw [e1, e2, htl]

theorem mergeRowsAux_congr (allSa allLa : List String)
    (sa sa2 la la2 : SaMap) (tl tl2 : TlMap) (students : List StudentRecord) :
    ∀ i : Nat,
      (∀ st ∈ students,
        (∀ k, lookup2 sa st.sid k = lookup2 sa2 st.sid k)
        ∧ (∀ k, lookup2 la st.sid k = lookup2 la2 st.sid k)
        ∧ tl.lookup st.sid = tl2.lookup st.sid) →
      mergeRowsAux allSa allLa sa la tl i students
        = mergeRowsAux allSa allLa sa2 la2 tl2 i students := by
  induction students with
  | nil => intro i _; rfl
  | cons st rest ih =>
    intro i h
    have hst := h st (List.mem_cons_self st rest)
    have hrest := fun x hx => h x (List.mem_cons_of_mem st hx)
    unfold mergeRowsAux
    rw [ih (i + 1) hrest,
      buildRow_congr i st allSa allLa sa sa2 la la2 tl tl2
        hst.1 hst.2.1 hst.2.2]

/-- C2: the merge is a left outer join driven by the roster: a roster
record with no score entry for a category key gets the zero cell (for each
of the two per-file-keyed categories and the aggregated one), and the
output depends only on the score values looked up at roster identifiers,
so entries for identifiers absent from the roster never surface. -/
theorem c2_left_join :
    (∀ (i : Nat) (st : StudentRecord) (allSa allLa : List String)
        (sa la : SaMap) (tl : TlMap) (j : Nat) (k : String),
        allSa[j]? = some k → lookup2 sa st.sid k = none →
        (buildRow i st allSa allLa sa la tl)[7 + j]? = some (Cell.num 0))
    ∧ (∀ (i : Nat) (st : StudentRecord) (allSa allLa : List String)
        (sa la : SaMap) (tl : TlMap) (j : Nat) (k : String),
        allLa[j]? = some k → lookup2 la st.sid k = none →
        (buildRow i st allSa allLa sa la tl)[7 + allSa.length + j]?
          = some (Cell.num 0))
    ∧ (∀ (i : Nat) (st : StudentRecord) (allSa allLa : List String)
        (sa la : SaMap) (tl : TlMap),
        tl.lookup st.sid = none →
        (buildRow i st allSa allLa sa la tl)[7 + allSa.length + allLa.length]?
          = some (Cell.num 0))
    ∧ (∀ (students : List StudentRecord) (allSa allLa : List String)
        (sa sa2 la la2 : SaMap) (tl tl2 : TlMap),
        (∀ st ∈ students,
          (∀ k, lookup2 sa st.sid k = lookup2 sa2 st.sid k)
          ∧ (∀ k, lookup2 la st.sid k = lookup2 la2 st.sid k)
          ∧ tl.lookup st.sid = tl2.lookup st.sid) →
        mergeRows students allSa allLa sa la tl
          = mergeRows students allSa allLa sa2 la2 tl2) := by
  refine ⟨?_, ?_, ?_, ?_⟩
  · intro i st allSa allLa sa la tl j k hj hnone
    rw [buildRow_sa_cell i st allSa allLa sa la tl j k hj, hnone]
    rfl
  · intro i st allSa allLa sa la tl j k hj hnone
    rw [buildRow_la_cell i st allSa allLa sa la tl j k hj, hnone]
    rfl
  · intro i st allSa allLa sa la tl hnone
    rw [buildRow_tl_cell i st allSa allLa sa la tl, hnone]
    rfl
  · intro students allSa allLa sa sa2 la la2 tl tl2 h
    exact mergeRowsAux_congr allSa allLa sa sa2 la la2 tl tl2 students 1 h

/-- Witness for C2 at concrete inputs: an empty score mapping yields the
zero cell, and a score entry for an identifier outside the roster leaves
the merged rows unchanged. -/
theorem c2_left_join_witness :
    (buildRow 1 ⟨"20230001A", "", "", "", "", "f"⟩ ["SA1"] [] [] [] [])[7]?
      = some (Cell.num 0)
    ∧ mergeRows [⟨"20230001A", "", "", "", "", "f"⟩] [] []
        [("99999999B", [("SA1", 5)])] [] []
      = mergeRows [⟨"20230001A", "", "", "", "", "f"⟩] [] [] [] [] [] := by
  constructor
  · exact c2_left_join.1 1 ⟨"20230001A", "", "", "", "", "f"⟩ ["SA1"] [] []
      [] [] 0 "SA1" rfl rfl
  · exact c2_left_join.2.2.2 [⟨"20230001A", "", "", "", "", "f"⟩] [] []
      [("99999999B", [("SA1", 5)])] [] [] [] [] []
      (fun st hst => by
        cases hst with
        | head => exact ⟨fun k => rfl, fun k => rfl, rfl⟩
        | tail _ hmem => cases hmem)

/-! Lemmas and theorems for the header-locator claim. -/

theorem matchCount_cons (c : String) (cs : List String) :
    matchCount (c :: cs)
      = (if (matchField (normCell c)).isSome then 1 else 0) + matchCount cs := by
  unfold matchCount
  rw [List.filter_cons]
  by_cases h : (matchField (normCell c)).isSome
  · simp [h, Nat.add_comm]
  · simp [h]

theorem rowScanAux_count (cs : List String) :
    ∀ (j : Nat) (acc : Nat × ColMapping),
      (rowScanAux cs j acc).1 = acc.1 + matchCount cs := by
  induction cs with
  | nil => intro j acc; simp [rowScanAux, matchCount]
  | cons c cs ih =>
    intro j acc
    rw [matchCount_cons]
    unfold rowScanAux
    cases hm : matchField (normCell c) with
    | none =>
      simp only [hm]
      rw [ih]
      simp
    | some f =>
      simp only [hm]
      rw [ih]
      simp only [Option.isSome_some, if_true]
      omega

theorem rowScan_count (r : List String) : (rowScan r).1 = matchCount r := by
  unfold rowScan
  rw [rowScanAux_count]
  simp

theorem ColMapping.get_set (m : ColMapping) (f g : Field) (j : Nat) :
    (m.set g j).get f = if f = g then some j else m.get f := by
  cases f <;> cases g <;> simp [ColMapping.set, ColMapping.get]

theorem ColMapping.get_empty (f : Field) : ColMapping.get {} f = none := by
  cases f <;> rfl

theorem rowScanAux_get (f : Field) (cs : List String) :
    ∀ (j : Nat) (acc : Nat × ColMapping),
      ((rowScanAux cs j acc).2).get f
        = (lastMatchFrom f cs j).or (acc.2.get f) := by
  induction cs with
  | nil => intro j acc; simp [rowScanAux, lastMatchFrom, Option.or]
  | cons c cs ih =>
    intro j acc
    unfold rowScanAux lastMatchFrom
    cases hm : matchField (normCell c) with
    | none =>
      simp only [hm]
      rw [ih]
      cases hrec : lastMatchFrom f cs (j + 1) with
      | none => simp [Option.or]
      | some r => simp [Option.or]
    | some g =>
      simp only [hm]
      rw [ih]
      cases hrec : lastMatchFrom f cs (j + 1) with
      | none =>
        simp only [Option.or]
        rw [ColMapping.get_set]
        by_cases hfg : f = g
        · subst hfg
          simp [Option.or]
        · have hgf : ¬ (some g = some f) := fun h => hfg (Option.some.inj h).symm
          simp [hfg, hgf, Option.or]
      | some r => simp [Option.or]

theorem rowScan_get (r : List String) (f : Field) :
    ((rowScan r).2).get f = lastMatchFrom f r 0 := by
  unfold rowScan
  rw [rowScanAux_get]
  rw [show ((0, ({} : ColMapping)) : Nat × ColMapping).2 = {} from rfl,
    ColMapping.get_empty]
  cases h : lastMatchFrom f r 0 <;> simp [Option.or]

theorem lastMatchFrom_isSome (f : Field) (cs : List String) :
    ∀ j : Nat,
      (lastMatchFrom f cs j).isSome
        = cs.any (fun c => decide (matchField (normCell c) = some f)) := by
  induction cs with
  | nil => intro j; rfl
  | cons c cs ih =>
    intro j
    unfold lastMatchFrom
    cases hrec : lastMatchFrom f cs (j + 1) with
    | some r =>
      have h1 : (lastMatchFrom f cs (j + 1)).isSome = true := by rw [hrec]; rfl
      rw [ih] at h1
      simp [List.any_cons, h1]
    | none =>
      have h1 : (lastMatchFrom f cs (j + 1)).isSome = false := by rw [hrec]; rfl
      rw [ih] at h1
      by_cases hm : matchField (normCell c) = some f
      · simp [List.any_cons, hm]
      · simp [List.any_cons, hm, h1]

theorem findHeaderAux_some (rs : List (List String)) :
    ∀ (i0 i : Nat) (m : ColMapping),
      findHeaderAux rs i0 = some (i, m) →
      ∃ k, i = i0 + k ∧ k < rs.length ∧ 2 ≤ matchCount (rs.getD k [])
        ∧ (∀ j < k, matchCount (rs.getD j []) < 2)
        ∧ m = (rowScan (rs.getD k [])).2 := by
  induction rs with
  | nil => intro i0 i m h; cases h
  | cons r rs ih =>
    intro i0 i m h
    unfold findHeaderAux at h
    by_cases hc : 2 ≤ (rowScan r).1
    · rw [if_pos hc] at h
      simp only [Option.some.injEq, Prod.mk.injEq] at h
      obtain ⟨hi, hm⟩ := h
      refine ⟨0, by omega, by simp, ?_, ?_, hm.symm⟩
      · show 2 ≤ matchCount r
        rw [← rowScan_count]
        exact hc
      · intro j hj
        exact absurd hj (Nat.not_lt_zero j)
    · rw [if_neg hc] at h
      obtain ⟨k, hk1, hk2, hk3, hk4, hk5⟩ := ih (i0 + 1) i m h
      refine ⟨k + 1, by omega, ?_, hk3, ?_, hk5⟩
      · simpa using Nat.succ_lt_succ hk2
      · intro j hj
        cases j with
        | zero =>
          show matchCount r < 2
          rw [← rowScan_count]
          omega
        | succ j2 => exact hk4 j2 (by omega)

theorem findHeaderAux_none (rs : List (List String)) :
    ∀ i0 : Nat,
      findHeaderAux rs i0 = none
        ↔ ∀ k < rs.length, matchCount (rs.getD k []) < 2 := by
  induction rs with
  | nil => intro i0; simp [findHeaderAux]
  | cons r rs ih =>
    intro i0
    unfold findHeaderAux
    by_cases hc : 2 ≤ (rowScan r).1
    · rw [if_pos hc]
      constructor
      · intro h; cases h
      · intro h
        have h0 : matchCount r < 2 := by
          have := h 0 (by simp)
          exact this
        rw [← rowScan_count] at h0
        omega
    · rw [if_neg hc]
      rw [ih (i0 + 1)]
      constructor
      · intro h k hk
        cases k with
        | zero =>
          show matchCount r < 2
          rw [← rowScan_count]
          omega
        | succ k2 =>
          exact h k2 (by simpa using hk)
      · intro h k hk
        exact h (k + 1) (by simpa using hk)

theorem getD_take_eq (grid : List (List String)) (k : Nat) (hk : k < 20) :
    (grid.take 20).getD k [] = grid.getD k [] := by
  rw [List.getD_eq_getElem?_getD, List.getD_eq_getElem?_getD,
    List.getElem?_take, if_pos hk]

theorem length_take_min (grid : List (List String)) :
    (grid.take 20).length = min 20 grid.length := by
  rw [List.length_take]

/-- C3 counterexample: on the grid with the single row `["id", "id"]` both
cells match the identifier field, so the match count reaches 2 and the row
is accepted as the header row (with the rightmost column recorded) although
only one distinct semantic field is matched; the claim would require the
result "not found". -/
theorem c3_header_locator_counterexample :
    findHeaderRow [["id", "id"]] = some (0, { idCol := some 1 })
    ∧ distinctFieldCount ["id", "id"] < 2 := by
  constructor
  · decide
  · decide

/-- C3 (amended): the header locator scans the first 20 rows and accepts the
first row containing at least 2 keyword-matching cells counted with
multiplicity (not necessarily 2 distinct semantic fields); the returned
mapping records, for each field, exactly the rightmost matching column of
that row, and contains exactly the matched fields; if no row in the window
reaches 2 matching cells, the result is "not found". -/
theorem c3_header_locator_amended (grid : List (List String)) :
    (∀ (i : Nat) (m : ColMapping), findHeaderRow grid = some (i, m) →
        i < min 20 grid.length
        ∧ 2 ≤ matchCount (rowAt grid i)
        ∧ (∀ j < i, matchCount (rowAt grid j) < 2)
        ∧ (∀ f, m.get f = lastMatchFrom f (rowAt grid i) 0)
        ∧ (∀ f, (m.get f).isSome
            = (rowAt grid i).any
                (fun c => decide (matchField (normCell c) = some f))))
    ∧ (findHeaderRow grid = none
        ↔ ∀ i < min 20 grid.length, matchCount (rowAt grid i) < 2) := by
  constructor
  · intro i m h
    obtain ⟨k, hk1, hk2, hk3, hk4, hk5⟩ :=
      findHeaderAux_some (grid.take 20) 0 i m h
    have hik : i = k := by omega
    subst hik
    rw [length_take_min] at hk2
    have hi20 : i < 20 := by omega
    have hrow : (grid.take 20).getD i [] = rowAt grid i :=
      getD_take_eq grid i hi20
    rw [hrow] at hk3 hk5
    refine ⟨hk2, hk3, ?_, ?_, ?_⟩
    · intro j hj
      have hrj : (grid.take 20).getD j [] = rowAt grid j :=
        getD_take_eq grid j (by omega)
      rw [← hrj]
      exact hk4 j hj
    · intro f
      rw [hk5, rowScan_get]
    · intro f
      rw [hk5, rowScan_get, lastMatchFrom_isSome]
  · rw [show findHeaderRow grid = findHeaderAux (grid.take 20) 0 from rfl,
      findHeaderAux_none]
    constructor
    · intro h i hi
      rw [length_take_min] at h
      have := h i hi
      rwa [getD_take_eq grid i (by omega)] at this
    · intro h k hk
      rw [length_take_min] at hk
      rw [getD_take_eq grid k (by omega)]
      exact h k hk

/-- Witness for C3 at a concrete grid whose first row matches the identifier
and name fields: the amended theorem applies and yields the bound and the
match count. -/
theorem c3_header_locator_amended_witness :
    0 < min 20 2
    ∧ 2 ≤ matchCount (rowAt [["学号", "姓名"], ["a", "b"]] 0) := by
  have h := (c3_header_locator_amended [["学号", "姓名"], ["a", "b"]]).1 0
      { idCol := some 0, nameCol := some 1 } (by decide)
  exact ⟨h.1, h.2.1⟩

/-! Lemmas and theorem for the column-order claim. -/

theorem sortedCats_sorted (m : SaMap) :
    List.Sorted (fun a b : String => a ≤ b) (sortedCats m) :=
  List.sorted_insertionSort _ _

theorem sortedCats_nodup (m : SaMap) : (sortedCats m).Nodup :=
  (List.perm_insertionSort _ _).nodup_iff.mpr (List.nodup_dedup _)

theorem mem_sortedCats (m : SaMap) (k : String) :
    k ∈ sortedCats m ↔ k ∈ catKeys m :=
  ((List.perm_insertionSort _ _).mem_iff).trans (List.mem_dedup)

theorem sortedCats_eq_of_mem_iff (m m2 : SaMap)
    (h : ∀ k, k ∈ catKeys m ↔ k ∈ catKeys m2) :
    sortedCats m = sortedCats m2 := by
  refine List.eq_of_perm_of_sorted ?_ (sortedCats_sorted m) (sortedCats_sorted m2)
  rw [List.perm_ext_iff_of_nodup (sortedCats_nodup m) (sortedCats_nodup m2)]
  intro a
  rw [mem_sortedCats, mem_sortedCats]
  exact h a

/-- C4: the output column list is the fixed identity and attribute columns,
then the lexically sorted distinct category keys of each per-file-keyed
mapping, then the single aggregated column; each sorted segment is sorted,
duplicate-free and holds exactly the observed keys, and the whole list
depends only on which keys were observed, not on file discovery or
processing order. -/
theorem c4_column_order :
    (∀ sa la : SaMap,
        buildColumns sa la
          = fixedCols ++ sortedCats sa ++ sortedCats la ++ ["TL讨论"])
    ∧ (∀ m : SaMap,
        List.Sorted (fun a b : String => a ≤ b) (sortedCats m)
        ∧ (sortedCats m).Nodup
        ∧ ∀ k, k ∈ sortedCats m ↔ k ∈ catKeys m)
    ∧ (∀ sa sa2 la la2 : SaMap,
        (∀ k, k ∈ catKeys sa ↔ k ∈ catKeys sa2) →
        (∀ k, k ∈ catKeys la ↔ k ∈ catKeys la2) →
        buildColumns sa la = buildColumns sa2 la2) := by
  refine ⟨fun sa la => rfl, ?_, ?_⟩
  · intro m
    exact ⟨sortedCats_sorted m, sortedCats_nodup m, mem_sortedCats m⟩
  · intro sa sa2 la la2 hsa hla
    unfold buildColumns
    rw [sortedCats_eq_of_mem_iff sa sa2 hsa, sortedCats_eq_of_mem_iff la la2 hla]

/-- Witness for C4 at concrete mappings: two collections observing the same
key sets in different orders produce identical column lists. -/
theorem c4_column_order_witness :
    buildColumns [("a", [("SA2", 1)]), ("b", [("SA1", 2)])] []
      = buildColumns [("c", [("SA1", 3), ("SA2", 4)])] [] := by
  refine c4_column_order.2.2 _ _ _ _ ?_ ?_
  · intro k
    show k ∈ ["SA2", "SA1"] ↔ k ∈ ["SA1", "SA2"]
    constructor <;>
      (intro h; simp only [List.mem_cons, List.not_mem_nil, or_false] at h ⊢;
       tauto)
  · intro k
    exact Iff.rfl

/-! Lemmas and theorems for the fallback-inference claim. -/

theorem str_isEmpty_iff (s : String) : s.data.isEmpty = true ↔ s = "" := by
  constructor
  · intro h
    obtain ⟨data⟩ := s
    cases data with
    | nil => rfl
    | cons a l => simp at h
  · intro h
    subst h
    rfl

theorem inferStep_eq_amendedStep (idCol : Nat) (st : InferState) (j : Nat)
    (cell : String) : inferStep idCol st j cell = amendedStep idCol st j cell := by
  have hseq : (st.seq.data.isEmpty && pyIsdigit (pyStrip cell) &&
      decide ((pyStrip cell).data.length ≤ 3))
      = (st.seq.data.isEmpty && specSeqOk (pyStrip cell)) := by
    unfold specSeqOk pyIsdigit
    rw [Bool.and_assoc]
  unfold inferStep amendedStep
  rw [hseq]
  unfold eligibleCell nameConsumes nameChecks specGenderOk specClsOk
  exact rfl

theorem inferFieldsAux_eq_amended (idCol : Nat) (cs : List String) :
    ∀ (j : Nat) (st : InferState),
      inferFieldsAux idCol cs j st = amendedInferAux idCol cs j st := by
  induction cs with
  | nil => intro j st; rfl
  | cons c cs ih =>
    intro j st
    unfold inferFieldsAux amendedInferAux
    rw [inferStep_eq_amendedStep]
    exact ih (j + 1) _

theorem inferStep_name_stays (idCol : Nat) (st : InferState) (j : Nat)
    (cell : String) (h : st.name ≠ "") :
    (inferStep idCol st j cell).name = st.name := by
  have hne : st.name.data.isEmpty = false := by
    cases he : st.name.data.isEmpty
    · rfl
    · exact absurd ((str_isEmpty_iff st.name).mp he) h
  unfold inferStep
  (repeat' split) <;> simp_all

theorem inferFieldsAux_name_stays (idCol : Nat) (cs : List String) :
    ∀ (j : Nat) (st : InferState), st.name ≠ "" →
      (inferFieldsAux idCol cs j st).name = st.name := by
  induction cs with
  | nil => intro j st h; rfl
  | cons c cs ih =>
    intro j st h
    have h2 : (inferStep idCol st j c).name = st.name :=
      inferStep_name_stays idCol st j c h
    have h3 : (inferStep idCol st j c).name ≠ "" := by rw [h2]; exact h
    show (inferFieldsAux idCol cs (j + 1) (inferStep idCol st j c)).name
        = st.name
    rw [ih (j + 1) _ h3, h2]

theorem inferStep_name_not_qual (idCol : Nat) (st : InferState) (j : Nat)
    (cell : String)
    (h : (eligibleCell idCol j cell && specNameOk (pyStrip cell)) = false) :
    (inferStep idCol st j cell).name = st.name := by
  unfold eligibleCell specNameOk nameConsumes nameChecks at h
  unfold inferStep
  (repeat' split) <;> simp_all

theorem inferStep_name_qual (idCol : Nat) (st : InferState) (j : Nat)
    (cell : String) (h0 : st.name = "")
    (h1 : eligibleCell idCol j cell = true)
    (h2 : specNameOk (pyStrip cell) = true) :
    (inferStep idCol st j cell).name = pyStrip cell := by
  have h0e : st.name.data.isEmpty = true := by
    rw [str_isEmpty_iff]
    exact h0
  unfold eligibleCell at h1
  unfold specNameOk nameConsumes nameChecks at h2
  unfold inferStep
  (repeat' split) <;> simp_all

theorem specNameOk_ne_empty (v : String) (h : specNameOk v = true) :
    v ≠ "" := by
  intro hv
  subst hv
  exact absurd h (by decide)

theorem inferFieldsAux_name_first (idCol : Nat) (cs : List String) :
    ∀ (j : Nat) (st : InferState), st.name = "" →
      (inferFieldsAux idCol cs j st).name
        = firstQualifyingAux idCol specNameOk cs j := by
  induction cs with
  | nil => intro j st h; exact h
  | cons c cs ih =>
    intro j st h
    show (inferFieldsAux idCol cs (j + 1) (inferStep idCol st j c)).name
        = firstQualifyingAux idCol specNameOk (c :: cs) j
    unfold firstQualifyingAux
    cases hq : (eligibleCell idCol j c && specNameOk (pyStrip c)) with
    | true =>
      rw [if_pos rfl]
      have h1 := Bool.and_elim_left hq
      have h2 := Bool.and_elim_right hq
      have hstep := inferStep_name_qual idCol st j c h h1 h2
      have hne : (inferStep idCol st j c).name ≠ "" := by
        rw [hstep]
        exact specNameOk_ne_empty _ h2
      rw [inferFieldsAux_name_stays idCol cs (j + 1) _ hne, hstep]
    | false =>
      rw [if_neg (by decide)]
      have hstep := inferStep_name_not_qual idCol st j c hq
      exact ih (j + 1) _ (by rw [hstep]; exact h)

/-- C5 counterexample: in the fallback row `["20230001A", "男", "男三"]`
with identifier column 0, the gender cell `"男"` is scanned before the name
cell; because the name field is still unfilled and the cell is neither
identifier-like nor numeric, it is consumed by the name branch (whose inner
checks fail), so the extractor leaves gender empty, while the claim's
per-field first-qualifying-cell reading fills gender with `"男"`. -/
theorem c5_fallback_inference_counterexample :
    inferFields ["20230001A", "男", "张三"] 0
        = { name := "张三", seq := "", gender := "", cls := "" }
    ∧ specInfer ["20230001A", "男", "张三"] 0
        = { name := "张三", seq := "", gender := "男", cls := "" }
    ∧ inferFields ["20230001A", "男", "张三"] 0
        ≠ specInfer ["20230001A", "男", "张三"] 0 := by
  refine ⟨by decide, by decide, by decide⟩

/-- C5 (amended): the fallback inference runs the per-cell chain in priority
order name, sequence, gender, class, each field filled at most once; the
name field is filled by the first eligible cell satisfying the full name
predicate, but an eligible cell that is neither identifier-like nor numeric
is consumed by the name heuristic while the name is unfilled even when the
inner name checks fail, so sequence, gender and class receive the first
eligible qualifying cell that is not so consumed (the amended step
function), rather than the first qualifying cell outright. -/
theorem c5_fallback_inference_amended (row : List String) (idCol : Nat) :
    inferFields row idCol = amendedInfer row idCol
    ∧ (inferFields row idCol).name = firstQualifying row idCol specNameOk := by
  constructor
  · exact inferFieldsAux_eq_amended idCol row 0 {}
  · exact inferFieldsAux_name_first idCol row 0 {} rfl

/-! Lemmas for the score-collection claim: dictionary updates and
last-write-wins characterisations. -/

theorem lookup_cons_self {β : Type} (k : String) (v : β)
    (rest : List (String × β)) :
    List.lookup k ((k, v) :: rest) = some v := by
  simp [List.lookup]

theorem lookup_cons_ne {β : Type} (k1 k2 : String) (v : β)
    (rest : List (String × β)) (h : k1 ≠ k2) :
    List.lookup k2 ((k1, v) :: rest) = List.lookup k2 rest := by
  have hb : (k2 == k1) = false := beq_eq_false_iff_ne.mpr (Ne.symm h)
  simp [List.lookup, hb]

theorem lookup_dictInsert (k : String) (v : Int) (k2 : String) :
    ∀ m : TlMap,
      List.lookup k2 (dictInsert m k v)
        = if k = k2 then some v else List.lookup k2 m := by
  intro m
  induction m with
  | nil =>
    by_cases h : k = k2
    · subst h
      rw [if_pos rfl]
      exact lookup_cons_self k v []
    · rw [if_neg h]
      exact lookup_cons_ne k k2 v [] h
  | cons p rest ih =>
    obtain ⟨k1, v1⟩ := p
    unfold dictInsert
    by_cases h1 : k1 = k
    · rw [if_pos h1]
      subst h1
      by_cases h2 : k1 = k2
      · subst h2
        rw [if_pos rfl, lookup_cons_self]
      · rw [if_neg h2, lookup_cons_ne k1 k2 v rest h2,
          lookup_cons_ne k1 k2 v1 rest h2]
    · rw [if_neg h1]
      by_cases h2 : k1 = k2
      · subst h2
        rw [lookup_cons_self, if_neg (fun h3 => h1 h3.symm), lookup_cons_self]
      · rw [lookup_cons_ne k1 k2 v1 _ h2, ih,
          lookup_cons_ne k1 k2 v1 rest h2]

theorem lookup2_cons_self (s1 : String) (inner : List (String × Int))
    (rest : SaMap) (key2 : String) :
    lookup2 ((s1, inner) :: rest) s1 key2 = List.lookup key2 inner := by
  unfold lookup2
  rw [lookup_cons_self]

theorem lookup2_cons_ne (s1 : String) (inner : List (String × Int))
    (rest : SaMap) (sid2 key2 : String) (h : s1 ≠ sid2) :
    lookup2 ((s1, inner) :: rest) sid2 key2 = lookup2 rest sid2 key2 := by
  unfold lookup2
  rw [lookup_cons_ne s1 sid2 inner rest h]

theorem lookup2_insert2 (sid key : String) (v : Int) (sid2 key2 : String) :
    ∀ m : SaMap,
      lookup2 (insert2 m sid key v) sid2 key2
        = if sid = sid2 ∧ key = key2 then some v
          else lookup2 m sid2 key2 := by
  intro m
  induction m with
  | nil =>
    by_cases h : sid = sid2
    · subst h
      rw [show insert2 [] sid key v = [(sid, [(key, v)])] from rfl,
        lookup2_cons_self]
      by_cases h2 : key = key2
      · subst h2
        rw [if_pos ⟨rfl, rfl⟩, lookup_cons_self]
      · rw [if_neg (fun hc => h2 hc.2), lookup_cons_ne key key2 v [] h2]
        exact rfl
    · rw [show insert2 [] sid key v = [(sid, [(key, v)])] from rfl,
        lookup2_cons_ne sid [(key, v)] [] sid2 key2 h,
        if_neg (fun hc => h hc.1)]
  | cons p rest ih =>
    obtain ⟨s1, inner⟩ := p
    unfold insert2
    by_cases h1 : s1 = sid
    · rw [if_pos h1]
      subst h1
      by_cases h2 : s1 = sid2
      · subst h2
        rw [lookup2_cons_self, lookup2_cons_self, lookup_dictInsert]
        by_cases h3 : key = key2
        · rw [if_pos h3, if_pos ⟨rfl, h3⟩]
        · rw [if_neg h3, if_neg (fun hc => h3 hc.2)]
      · rw [lookup2_cons_ne s1 (dictInsert inner key v) rest sid2 key2 h2,
          lookup2_cons_ne s1 inner rest sid2 key2 h2,
          if_neg (fun hc => h2 hc.1)]
    · rw [if_neg h1]
      by_cases h2 : s1 = sid2
      · subst h2
        rw [lookup2_cons_self, lookup2_cons_self,
          if_neg (fun hc => h1 hc.1.symm)]
      · rw [lookup2_cons_ne s1 inner _ sid2 key2 h2, ih,
          lookup2_cons_ne s1 inner rest sid2 key2 h2]

theorem lastWriteVal_snoc (ws : List (String × Int)) (w : String × Int)
    (id : String) :
    lastWriteVal (ws ++ [w]) id
      = if w.1 = id then some w.2 else lastWriteVal ws id := by
  unfold lastWriteVal
  rw [List.reverse_append]
  simp only [List.reverse_cons, List.reverse_nil, List.nil_append,
    List.singleton_append]
  by_cases hw : w.1 = id
  · rw [List.find?_cons_of_pos _ (by simpa using hw), if_pos hw]
    exact rfl
  · rw [List.find?_cons_of_neg _ (by simpa using hw), if_neg hw]

theorem lastWriteVal_append (A B : List (String × Int)) (id : String) :
    lastWriteVal (A ++ B) id = (lastWriteVal B id).or (lastWriteVal A id) := by
  unfold lastWriteVal
  rw [List.reverse_append, List.find?_append]
  cases h : List.find? (fun p => p.1 == id) B.reverse <;> simp [h, Option.or]

theorem lookup_foldl_dictInsert (id : String) (ws : List (String × Int)) :
    ∀ m : TlMap,
      List.lookup id (ws.foldl (fun m p => dictInsert m p.1 p.2) m)
        = (lastWriteVal ws id).or (List.lookup id m) := by
  induction ws using List.reverseRecOn with
  | nil => intro m; simp [lastWriteVal, Option.or]
  | append_singleton ws w ih =>
    intro m
    rw [List.foldl_append, List.foldl_cons, List.foldl_nil,
      lookup_dictInsert, lastWriteVal_snoc, ih]
    by_cases hw : w.1 = id
    · rw [if_pos hw, if_pos hw]
      rfl
    · rw [if_neg hw, if_neg hw]

theorem elim_foldl_writes (c : String) (rows : List SRow) :
    ∀ m : TlMap,
      rows.foldl
          (fun m r => (rowWrite c r).elim m (fun p => dictInsert m p.1 p.2)) m
        = (rows.filterMap (rowWrite c)).foldl
            (fun m p => dictInsert m p.1 p.2) m := by
  induction rows with
  | nil => intro m; rfl
  | cons r rows ih =>
    intro m
    cases hr : rowWrite c r <;> simp [hr, ih]

theorem processTlFile_lookup (m : TlMap) (t : LTable) (id : String) :
    List.lookup id (processTlFile m t)
      = (lastWriteVal (tlFileWrites t) id).or (List.lookup id m) := by
  unfold processTlFile tlFileWrites
  by_cases hc : t.cols.contains "讨论/" = true
  · rw [if_pos hc, if_pos hc, elim_foldl_writes, lookup_foldl_dictInsert]
  · rw [if_neg hc, if_neg hc]
    simp [lastWriteVal, Option.or]

theorem processTlFilesAux_lookup (ts : List LTable) (id : String) :
    ∀ m : TlMap,
      List.lookup id (ts.foldl processTlFile m)
        = (lastWriteVal ((ts.map tlFileWrites).flatten) id).or
            (List.lookup id m) := by
  induction ts with
  | nil => intro m; simp [lastWriteVal, Option.or]
  | cons t ts ih =>
    intro m
    rw [List.foldl_cons, ih, List.map_cons, List.flatten_cons,
      processTlFile_lookup, lastWriteVal_append, Option.or_assoc]

theorem lookup2_processSaRows (key c : String) (rows : List SRow)
    (id : String) :
    ∀ m : SaMap,
      lookup2 (processSaRows key c rows m) id key
        = (lastWriteVal (saRowWrites c rows) id).or (lookup2 m id key) := by
  induction rows using List.reverseRecOn with
  | nil => intro m; simp [processSaRows, saRowWrites, lastWriteVal, Option.or]
  | append_singleton rows r ih =>
    intro m
    unfold processSaRows at ih ⊢
    rw [List.foldl_append, List.foldl_cons, List.foldl_nil]
    unfold saRowWrites at ih ⊢
    rw [List.filterMap_append]
    cases hr : rowWrite c r with
    | none =>
      rw [show List.filterMap (rowWrite c) [r] = [] by simp [hr]]
      rw [List.append_nil]
      simp only [hr, Option.elim_none]
      exact ih m
    | some p =>
      rw [show List.filterMap (rowWrite c) [r] = [p] by simp [hr]]
      simp only [hr, Option.elim_some]
      rw [lookup2_insert2, lastWriteVal_snoc, ih m]
      by_cases hp : p.1 = id
      · rw [if_pos ⟨hp, rfl⟩, if_pos hp]
        rfl
      · rw [if_neg (fun hc => hp hc.1), if_neg hp]

theorem lookup2_processSaRows_ne (key c : String) (rows : List SRow)
    (id key2 : String) (hne : key ≠ key2) :
    ∀ m : SaMap,
      lookup2 (processSaRows key c rows m) id key2 = lookup2 m id key2 := by
  induction rows with
  | nil => intro m; rfl
  | cons r rows ih =>
    intro m
    unfold processSaRows at ih ⊢
    rw [List.foldl_cons, ih]
    cases hr : rowWrite c r with
    | none => simp only [hr, Option.elim_none]
    | some p =>
      simp only [hr, Option.elim_some]
      rw [lookup2_insert2, if_neg (fun hc => hne hc.2)]

theorem lookup2_processSaFile (key : String) (t : LTable) (id : String)
    (m : SaMap) :
    lookup2 (processSaFile key t m) id key
      = (saFileVal t id).or (lookup2 m id key) := by
  unfold processSaFile saFileVal
  cases hc : scoreColOf t.cols with
  | none => simp [Option.or]
  | some c =>
    simp only
    rw [lookup2_processSaRows]

theorem lookup2_processSaFile_ne (key : String) (t : LTable)
    (id key2 : String) (hne : key ≠ key2) (m : SaMap) :
    lookup2 (processSaFile key t m) id key2 = lookup2 m id key2 := by
  unfold processSaFile
  cases hc : scoreColOf t.cols with
  | none => rfl
  | some c =>
    simp only
    exact lookup2_processSaRows_ne key c t.rows id key2 hne m

theorem lookup2_saFold_ne (fs : List (String × LTable)) (id key : String) :
    ∀ m : SaMap, (∀ p ∈ fs, p.1 ≠ key) →
      lookup2 (fs.foldl (fun m p => processSaFile p.1 p.2 m) m) id key
        = lookup2 m id key := by
  induction fs with
  | nil => intro m _; rfl
  | cons q fs ih =>
    intro m h
    rw [List.foldl_cons, ih _ (fun p hp => h p (List.mem_cons_of_mem q hp))]
    exact lookup2_processSaFile_ne q.1 q.2 id key
      (h q (List.mem_cons_self q fs)) m

theorem collectSaFiles_isolated (fs : List (String × LTable)) (key : String)
    (t : LTable) (hnd : (fs.map (fun p => p.1)).Nodup)
    (hmem : (key, t) ∈ fs) (id : String) :
    lookup2 (collectSaFiles fs) id key
      = lookup2 (processSaFile key t []) id key := by
  obtain ⟨xs, ys, rfl⟩ := List.append_of_mem hmem
  rw [List.map_append, List.map_cons, List.nodup_middle] at hnd
  have hkey := (List.nodup_cons.mp hnd).1
  have hxs : ∀ p ∈ xs, p.1 ≠ key := by
    intro p hp hcon
    exact hkey (List.mem_append.mpr
      (Or.inl (hcon ▸ List.mem_map_of_mem (fun q => q.1) hp)))
  have hys : ∀ p ∈ ys, p.1 ≠ key := by
    intro p hp hcon
    exact hkey (List.mem_append.mpr
      (Or.inr (hcon ▸ List.mem_map_of_mem (fun q => q.1) hp)))
  unfold collectSaFiles
  rw [List.foldl_append, List.foldl_cons, lookup2_saFold_ne ys id key _ hys,
    lookup2_processSaFile, lookup2_processSaFile,
    lookup2_saFold_ne xs id key _ hxs]

/-- C6: the aggregated category records, for each identifier, the most
recent qualifying write over all files in processing order (a later file
overwrites an earlier one for the same identifier; within a file each
qualifying row contributes a write under the stripped identifier, nothing
unless the exact fixed column is present), whereas in the per-file-keyed
category, with pairwise distinct file keys, the value under a file's key is
determined by that file alone and is never overwritten by other files. -/
theorem c6_aggregated_last_write_wins :
    (∀ (ts : List LTable) (id : String),
        List.lookup id (processTlFiles ts)
          = lastWriteVal ((ts.map tlFileWrites).flatten) id)
    ∧ (∀ (fs : List (String × LTable)) (key : String) (t : LTable),
        (fs.map (fun p => p.1)).Nodup → (key, t) ∈ fs →
        ∀ id : String,
          lookup2 (collectSaFiles fs) id key
            = lookup2 (processSaFile key t []) id key) := by
  constructor
  · intro ts id
    unfold processTlFiles
    rw [processTlFilesAux_lookup]
    rw [show List.lookup id ([] : TlMap) = none from rfl, Option.or_none]
  · intro fs key t hnd hmem id
    exact collectSaFiles_isolated fs key t hnd hmem id

/-- Witness for C6 at two concrete per-file-keyed files with distinct keys:
the value under the first key is what the first file alone determines. -/
theorem c6_aggregated_last_write_wins_witness :
    lookup2 (collectSaFiles
        [("SA1", ⟨["x得分"], [⟨some "S1", [("x得分", some 4)]⟩]⟩),
         ("SA2", ⟨["x得分"], [⟨some "S1", [("x得分", some 9)]⟩]⟩)]) "S1" "SA1"
      = lookup2 (processSaFile "SA1"
          ⟨["x得分"], [⟨some "S1", [("x得分", some 4)]⟩]⟩ []) "S1" "SA1" :=
  c6_aggregated_last_write_wins.2
    [("SA1", ⟨["x得分"], [⟨some "S1", [("x得分", some 4)]⟩]⟩),
     ("SA2", ⟨["x得分"], [⟨some "S1", [("x得分", some 9)]⟩]⟩)]
    "SA1" ⟨["x得分"], [⟨some "S1", [("x得分", some 4)]⟩]⟩
    (by decide) (by decide) "S1"

/-! Lemmas and theorems for the export claim. -/

theorem mergeRowsAux_length (allSa allLa : List String) (sa la : SaMap)
    (tl : TlMap) :
    ∀ (i : Nat) (students : List StudentRecord),
      (mergeRowsAux allSa allLa sa la tl i students).length
        = students.length := by
  intro i students
  induction students generalizing i with
  | nil => rfl
  | cons st rest ih => simp [mergeRowsAux, ih]

/-- C8 counterexample: on a run of the full pipeline in which the extracted
roster is empty, the export step performs zero file writes, not the one
write the claim requires for every run. -/
theorem c8_export_counterexample :
    (exportWrites (runPipeline [] [] [] []) defaultOutputName).length = 0
    ∧ (0 : Nat) ≠ 1 := by
  constructor
  · rfl
  · decide

/-- C8 (amended): the merged summary has exactly one row per roster record;
when the summary is non-empty the export step writes exactly once, the
written content being the header row followed by the data rows under the
fixed default name, but when the summary is empty nothing is written at
all (the export step returns early). -/
theorem c8_export_amended
    (rosterFiles : List (String × Except String (List (List String))))
    (saFiles laFiles tlFiles : List (String × Except String LTable))
    (outName : String) :
    (runPipeline rosterFiles saFiles laFiles tlFiles).rows.length
        = (collectRoster rosterFiles).length
    ∧ ((runPipeline rosterFiles saFiles laFiles tlFiles).rows ≠ [] →
        exportWrites (runPipeline rosterFiles saFiles laFiles tlFiles) outName
          = [(outName,
              (runPipeline rosterFiles saFiles laFiles tlFiles).cols.map
                  Cell.str
                :: (runPipeline rosterFiles saFiles laFiles tlFiles).rows)])
    ∧ ((runPipeline rosterFiles saFiles laFiles tlFiles).rows = [] →
        exportWrites (runPipeline rosterFiles saFiles laFiles tlFiles) outName
          = []) := by
  refine ⟨?_, ?_, ?_⟩
  · exact mergeRowsAux_length _ _ _ _ _ 1 (collectRoster rosterFiles)
  · intro h
    unfold exportWrites
    rw [if_neg (fun hc => h (List.length_eq_zero.mp hc))]
  · intro h
    unfold exportWrites
    rw [if_pos (by rw [h]; rfl)]

/-- Witness for C8 at a concrete run with one roster file yielding one
record: the export writes exactly the header row plus the single data row. -/
theorem c8_export_amended_witness :
    exportWrites (runPipeline
        [("CL1.xls", Except.ok [["学号", "姓名"], ["20230001A", "张三"]])]
        [] [] []) defaultOutputName
      = [(defaultOutputName,
          (runPipeline
              [("CL1.xls", Except.ok [["学号", "姓名"], ["20230001A", "张三"]])]
              [] [] []).cols.map Cell.str
            :: (runPipeline
                [("CL1.xls", Except.ok [["学号", "姓名"], ["20230001A", "张三"]])]
                [] [] []).rows)] :=
  (c8_export_amended
      [("CL1.xls", Except.ok [["学号", "姓名"], ["20230001A", "张三"]])]
      [] [] [] defaultOutputName).2.1 (by decide)

/-! Lemmas and theorems for the gender-invariant claim. -/

theorem mappedRowRecord_gender (row : List String) (idCol : Nat)
    (m : ColMapping) (src : String) (r : StudentRecord)
    (h : mappedRowRecord row idCol m src = some r) :
    r.gender = optFieldVal row m.genderCol := by
  unfold mappedRowRecord at h
  by_cases h1 : idCol < row.length
  · rw [if_pos h1] at h
    by_cases h2 : validStudentId (pyStrip (row.getD idCol "")) = true
    · rw [if_pos h2] at h
      injection h with h3
      subst h3
      rfl
    · rw [if_neg h2] at h
      cases h
  · rw [if_neg h1] at h
    cases h

theorem inferStep_gender_inv (idCol : Nat) (st : InferState) (j : Nat)
    (cell : String)
    (h : st.gender = "" ∨ st.gender = "男" ∨ st.gender = "女") :
    (inferStep idCol st j cell).gender = ""
      ∨ (inferStep idCol st j cell).gender = "男"
      ∨ (inferStep idCol st j cell).gender = "女" := by
  unfold inferStep
  (repeat' split) <;> simp_all

theorem inferFieldsAux_gender_inv (idCol : Nat) (cs : List String) :
    ∀ (j : Nat) (st : InferState),
      (st.gender = "" ∨ st.gender = "男" ∨ st.gender = "女") →
      ((inferFieldsAux idCol cs j st).gender = ""
        ∨ (inferFieldsAux idCol cs j st).gender = "男"
        ∨ (inferFieldsAux idCol cs j st).gender = "女") := by
  induction cs with
  | nil => intro j st h; exact h
  | cons c cs ih =>
    intro j st h
    exact ih (j + 1) _ (inferStep_gender_inv idCol st j c h)

theorem extractFallback_none (grid : List (List String)) (src : String)
    (h : findIdAnchor grid = none) : extractFallback grid src = [] := by
  unfold extractFallback
  rw [h]

theorem extractFallback_some (grid : List (List String)) (src : String)
    (hr c : Nat) (h : findIdAnchor grid = some (hr, c)) :
    extractFallback grid src
      = ((grid.drop (hr + 1)).take 30).filterMap
          (fun row => fallbackRowRecord row c src) := by
  unfold extractFallback
  rw [h]
  show ((grid.drop (hr + 1)).take 30).foldl
      (fun acc row => acc ++ (fallbackRowRecord row c src).toList) [] = _
  rw [foldl_collect]
  simp

theorem fallbackRowRecord_gender (row : List String) (c : Nat) (src : String)
    (r : StudentRecord) (h : fallbackRowRecord row c src = some r) :
    r.gender = (inferFields row c).gender := by
  unfold fallbackRowRecord at h
  by_cases h1 : c < row.length
  · rw [if_pos h1] at h
    by_cases h2 : validStudentId (pyStrip (row.getD c "")) = true
    · rw [if_pos h2] at h
      injection h with h3
      subst h3
      rfl
    · rw [if_neg h2] at h
      cases h
  · rw [if_neg h1] at h
    cases h

/-- C9 counterexample: on the mapped path, the gender column cell is copied
verbatim after the missing-value check, so a roster file whose gender
column holds `"unknown"` yields a record whose gender is neither empty nor
a member of the two-value set. -/
theorem c9_gender_counterexample :
    (extractRosterFile [["学号", "性别"], ["20230001A", "unknown"]]
        "CL1.xls").map (fun r => r.gender) = ["unknown"]
    ∧ ¬("unknown" = "" ∨ "unknown" = "男" ∨ "unknown" = "女") := by
  constructor
  · decide
  · decide

/-- C9 (amended): fallback-path records always carry a gender that is empty
or a member of the two-value set, because the fallback heuristic only fills
gender from an exact match; mapped-path records carry whatever non-missing
string the mapped gender column holds, with no membership check. -/
theorem c9_gender_amended :
    (∀ (row : List String) (idCol : Nat) (m : ColMapping) (src : String)
        (r : StudentRecord),
        mappedRowRecord row idCol m src = some r →
        r.gender = optFieldVal row m.genderCol)
    ∧ (∀ (grid : List (List String)) (src : String) (r : StudentRecord),
        r ∈ extractFallback grid src →
        r.gender = "" ∨ r.gender = "男" ∨ r.gender = "女") := by
  constructor
  · intro row idCol m src r h
    exact mappedRowRecord_gender row idCol m src r h
  · intro grid src r h
    cases ha : findIdAnchor grid with
    | none =>
      rw [extractFallback_none grid src ha] at h
      cases h
    | some p =>
      obtain ⟨hr, c⟩ := p
      rw [extractFallback_some grid src hr c ha] at h
      obtain ⟨row, _, hf⟩ := List.mem_filterMap.mp h
      rw [fallbackRowRecord_gender row c src r hf]
      exact inferFieldsAux_gender_inv c row 0 {} (Or.inl rfl)

/-- Witness for C9 at a concrete mapped-path row whose gender column holds
a member of the two-value set: the record carries the column value. -/
theorem c9_gender_amended_witness :
    (⟨"20230001A", "", "", "", "男", "f"⟩ : StudentRecord).gender
      = optFieldVal ["20230001A", "男"] (some 1) :=
  c9_gender_amended.1 ["20230001A", "男"] 0 { genderCol := some 1 } "f"
    ⟨"20230001A", "", "", "", "男", "f"⟩ (by decide)

/-! Lemmas and theorem for the leftmost-score-column claim. -/

theorem bool_eq_false {b : Bool} (h : ¬ b = true) : b = false := by
  cases b
  · rfl
  · exact absurd rfl h

theorem find?_eq_some_first {α : Type} (p : α → Bool) (l : List α) (c : α) :
    l.find? p = some c ↔
      ∃ i : Nat, l[i]? = some c ∧ p c = true
        ∧ ∀ j < i, ∀ x, l[j]? = some x → p x = false := by
  induction l with
  | nil =>
    constructor
    · intro h; cases h
    · rintro ⟨i, hi, -, -⟩
      rw [List.getElem?_nil] at hi
      cases hi
  | cons a l ih =>
    by_cases hpa : p a = true
    · rw [List.find?_cons_of_pos _ hpa]
      constructor
      · intro h
        injection h with h1
        subst h1
        exact ⟨0, List.getElem?_cons_zero, hpa,
          fun j hj x hx => absurd hj (Nat.not_lt_zero j)⟩
      · rintro ⟨i, hi, hp, hmin⟩
        cases i with
        | zero =>
          rw [List.getElem?_cons_zero] at hi
          injection hi with h2
          rw [h2]
        | succ i2 =>
          have hfa := hmin 0 (Nat.succ_pos i2) a List.getElem?_cons_zero
          rw [hfa] at hpa
          cases hpa
    · rw [List.find?_cons_of_neg _ hpa, ih]
      constructor
      · rintro ⟨i, hi, hp, hmin⟩
        refine ⟨i + 1, by simpa using hi, hp, ?_⟩
        intro j hj x hx
        cases j with
        | zero =>
          have hxa : a = x := by
            rw [List.getElem?_cons_zero] at hx
            injection hx
          rw [← hxa]
          exact bool_eq_false hpa
        | succ j2 =>
          exact hmin j2 (by omega) x (by simpa using hx)
      · rintro ⟨i, hi, hp, hmin⟩
        cases i with
        | zero =>
          have hac : a = c := by
            rw [List.getElem?_cons_zero] at hi
            injection hi
          rw [← hac] at hp
          exact absurd hp hpa
        | succ i2 =>
          refine ⟨i2, by simpa using hi, hp, ?_⟩
          intro j hj x hx
          exact hmin (j + 1) (by omega) x (by simpa using hx)

/-- C10: the per-file-keyed collector selects the leftmost column whose
name contains the score-label keyword (the chosen column is a matching one
and every earlier column does not match), and processing the file is
unchanged when all other columns are dropped, so every row of the file is
read through that single column and other matching columns are ignored. -/
theorem c10_leftmost_score_column :
    (∀ (cols : List String) (c : String),
        scoreColOf cols = some c ↔
          ∃ i : Nat, cols[i]? = some c ∧ pyIn "得分" c = true
            ∧ ∀ j < i, ∀ c2, cols[j]? = some c2 → pyIn "得分" c2 = false)
    ∧ (∀ (key : String) (t : LTable) (m : SaMap) (c : String),
        scoreColOf t.cols = some c →
        processSaFile key t m
          = processSaFile key { cols := [c], rows := t.rows } m) := by
  constructor
  · intro cols c
    exact find?_eq_some_first (fun c2 => pyIn "得分" c2) cols c
  · intro key t m c h
    have hc : pyIn "得分" c = true := List.find?_some h
    have h2 : scoreColOf ({ cols := [c], rows := t.rows } : LTable).cols
        = some c := List.find?_cons_of_pos _ hc
    unfold processSaFile
    rw [h, h2]

/-- Witness for C10 at a concrete table with two matching columns: the
collection only depends on the leftmost one. -/
theorem c10_leftmost_score_column_witness :
    processSaFile "k" ⟨["学号", "a得分", "b得分"], []⟩ []
      = processSaFile "k" ⟨["a得分"], []⟩ [] :=
  c10_leftmost_score_column.2 "k" ⟨["学号", "a得分", "b得分"], []⟩ [] "a得分"
    (by decide)

end GradeSummary
